import Mathlib

/-!
Verification of the core module `douban_notion_core.py`: a pipeline that
fetches book metadata from a catalog page, normalizes it, and writes it to a
record store.  Pure helpers are embedded directly; the two network calls are
modelled by outcome oracles (one outcome per attempt), so that the retry and
error-routing logic of the source is captured as a deterministic function of
the oracle.  Strings are handled at the `List Char` (code point) level, which
matches Python `str` indexing/slicing semantics.
-/

set_option linter.unusedVariables false

namespace DoubanNotion

/-- Whitespace test modelling Python's `\s` for the characters that occur in
the scraped pages (space, tab, newline, carriage return). -/
def isWS (c : Char) : Bool := c == ' ' || c == '\t' || c == '\n' || c == '\r'

/-- `str.strip()` on code-point lists: drop leading and trailing whitespace. -/
def pyStripL (l : List Char) : List Char :=
  ((l.dropWhile isWS).reverse.dropWhile isWS).reverse

/-- Trailing-whitespace strip only (helper used to factor `pyStripL`). -/
def pyStripTrail (l : List Char) : List Char :=
  (l.reverse.dropWhile isWS).reverse

/-- `str.strip()` at string level. -/
def pyStrip (s : String) : String := String.mk (pyStripL s.toList)

/-- One left-to-right pass implementing `re.sub(r"\s+", " ", text)`: the flag
records whether the previous character was whitespace (so that a whole run
contributes a single `' '`). -/
def collapseAux : Bool → List Char → List Char
  | _, [] => []
  | prevWS, c :: rest =>
    if isWS c then
      if prevWS then collapseAux true rest
      else ' ' :: collapseAux true rest
    else c :: collapseAux false rest

/-- `collapse_spaces` (source lines 41-49): `re.sub(r"\s+", " ", text).strip()`,
with the empty string returned unchanged. -/
def collapse_spaces (text : String) : String :=
  if text = "" then ""
  else String.mk (pyStripL (collapseAux false text.toList))

/-- Spec-side normal form (a second definition, following the spec's words in
§4.1: "any run of whitespace characters collapses to a single space;
leading/trailing whitespace is trimmed"): a whitespace run becomes one `' '`
when more text follows and disappears at the end of the string. -/
def specGo : List Char → List Char
  | [] => []
  | c :: rest =>
    if isWS c then
      match h : rest.dropWhile isWS with
      | [] => []
      | d :: r => ' ' :: d :: specGo r
    else c :: specGo rest
termination_by l => l.length
decreasing_by
  · have hlen : ∀ t : List Char, (t.dropWhile isWS).length ≤ t.length := by
      intro t
      induction t with
      | nil => simp [List.dropWhile]
      | cons a t ih =>
        rw [List.dropWhile_cons]
        split
        · exact Nat.le_succ_of_le ih
        · exact Nat.le_refl _
    have hr := hlen rest
    rw [h] at hr
    simp only [List.length_cons] at hr ⊢
    omega
  · simp

/-- Spec-side collapse: trim the leading run, then normalize the rest. -/
def collapseSpec (l : List Char) : List Char := specGo (l.dropWhile isWS)

/-- Python `str.split(sep)` for a one-character separator: splits on every
occurrence, keeping empty segments, and yields `[""]` on the empty string. -/
def splitOnC (sep : Char) : List Char → List (List Char)
  | [] => [[]]
  | c :: rest =>
    match splitOnC sep rest with
    | [] => [[]]
    | h :: t => if c = sep then [] :: h :: t else (c :: h) :: t

/-- `raw_value.replace(" / ", "/")` (source line 145/152): left-to-right,
non-overlapping replacement of the three-character pattern. -/
def replSlash : List Char → List Char
  | [] => []
  | [c] => [c]
  | [c1, c2] => [c1, c2]
  | c1 :: c2 :: c3 :: rest =>
    if c1 = ' ' ∧ c2 = '/' ∧ c3 = ' ' then '/' :: replSlash rest
    else c1 :: replSlash (c2 :: c3 :: rest)

/-- Author/translator splitting (source lines 144-157):
`[collapse_spaces(v) for v in raw_value.replace(" / ", "/").split("/") if v.strip()]`. -/
def parseNames (raw_value : String) : List String :=
  ((splitOnC '/' (replSlash raw_value.toList)).filter
      (fun v => !(pyStripL v).isEmpty)).map
    (fun v => collapse_spaces (String.mk v))

/-- `re.sub(r"\D+", "", pages_text)` (source line 169): keep only digit
characters (digits in the scraped values are ASCII). -/
def digitsOnly (s : String) : String := String.mk (s.toList.filter Char.isDigit)

/-- Python `str.startswith(prefix)`. -/
def strStartsWith (s pre : String) : Bool := pre.toList.isPrefixOf s.toList

/-- `label_text.rstrip("：:")` (source line 120). -/
def rstripColons (s : String) : String :=
  String.mk ((s.toList.reverse.dropWhile (fun c => c == ':' || c == '：')).reverse)

/-- `raw_value.lstrip(":：")` (source line 139). -/
def lstripColons (s : String) : String :=
  String.mk (s.toList.dropWhile (fun c => c == ':' || c == '：'))

/-- Python slice `s[:n]`. -/
def strTake (n : Nat) (s : String) : String := String.mk (s.toList.take n)

/-- Value of a decimal digit string. -/
def digitsToNat (ds : List Char) : Nat :=
  ds.foldl (fun a c => 10 * a + (c.toNat - 48)) 0

/-- Python `int(str)` on code-point lists: surrounding whitespace is stripped,
an optional sign precedes a non-empty run of digits; anything else raises
`ValueError`, modelled as `none`.  (Underscore digit separators, accepted by
CPython, do not occur in the scraped fields and are not modelled.) -/
def pyIntL? (l : List Char) : Option Int :=
  match pyStripL l with
  | '-' :: ds =>
    if !ds.isEmpty && ds.all Char.isDigit then some (-(digitsToNat ds : Int)) else none
  | '+' :: ds =>
    if !ds.isEmpty && ds.all Char.isDigit then some (digitsToNat ds : Int) else none
  | ds =>
    if !ds.isEmpty && ds.all Char.isDigit then some (digitsToNat ds : Int) else none

/-- Python `int(str)` at string level. -/
def pyInt? (s : String) : Option Int := pyIntL? s.toList

/-- Decimal representation of `m` left-padded with `'0'` to width `w`. -/
def padNat (w : Nat) (m : Nat) : String :=
  let s := toString m
  String.mk (List.replicate (w - s.length) '0') ++ s

/-- Python `f"{n:0wd}"`: zero-padded to total width `w`, sign included. -/
def padNum (w : Nat) (n : Int) : String :=
  if n < 0 then "-" ++ padNat (w - 1) n.natAbs else padNat w n.toNat

/-- `max lo (min n hi)`, the clamping pattern of source lines 220-221. -/
def iclamp (lo hi n : Int) : Int := max lo (min n hi)

/-- `f"{year:04d}-{month:02d}-{day:02d}"` (source line 223). -/
def fmtDate (y m d : Int) : String :=
  padNum 4 y ++ "-" ++ padNum 2 m ++ "-" ++ padNum 2 d

/-- Body of `convert_pubdate` after the emptiness guard (source lines 197-223):
split the stripped input on `-`; the first segment must parse as the year;
the second segment (if any) gives the month, defaulting to 1 on `ValueError`;
the third segment (only when there are exactly three) gives the day likewise;
month and day are clamped and the date is zero-padded. -/
def convertCore (rp : String) : Option String :=
  let parts := splitOnC '-' (pyStripL rp.toList)
  match pyIntL? parts.headI with
  | none => none
  | some year =>
    let month : Int := if 2 ≤ parts.length then (pyIntL? (parts.getD 1 [])).getD 1 else 1
    let day : Int := if parts.length = 3 then (pyIntL? (parts.getD 2 [])).getD 1 else 1
    some (fmtDate year (iclamp 1 12 month) (iclamp 1 31 day))

/-- `convert_pubdate` (source lines 185-223). -/
def convert_pubdate (raw_pubdate : Option String) : Option String :=
  match raw_pubdate with
  | none => none
  | some rp => if rp = "" then none else convertCore rp

/-- JSON values, the shape of Notion property payloads. -/
inductive J where
  | null
  | str (s : String)
  | num (n : Int)
  | arr (elems : List J)
  | obj (fields : List (String × J))

/-- `rich_text_property` (source lines 239-242). -/
def rich_text_property (text : String) : J :=
  if text = "" then J.obj [("rich_text", J.arr [])]
  else J.obj [("rich_text", J.arr [J.obj [("text", J.obj [("content", J.str text)])]])]

/-- `title_property` (source lines 245-248); a `None` argument never occurs in
this module, so the `if not text: text = ""` guard is the identity here. -/
def title_property (text : String) : J :=
  J.obj [("title", J.arr [J.obj [("text", J.obj [("content", J.str text)])]])]

/-- `date_property` (source lines 251-254). -/
def date_property (date_str : Option String) : J :=
  match date_str with
  | none => J.obj [("date", J.null)]
  | some s =>
    if s = "" then J.obj [("date", J.null)]
    else J.obj [("date", J.obj [("start", J.str s)])]

/-- `number_property` (source lines 257-266). -/
def number_property (value : String) : J :=
  if value = "" then J.obj [("number", J.null)]
  else
    match pyInt? value with
    | some n => J.obj [("number", J.num n)]
    | none => J.obj [("number", J.null)]

/-- `select_property` (source lines 269-275). -/
def select_property (value : String) : J :=
  if value = "" then J.obj [("select", J.null)]
  else J.obj [("select", J.obj [("name", J.str value)])]

/-- The raw book record produced by the fetcher (the `book_data` dict of
source lines 171-180). -/
structure Book where
  title : String
  publisher : String
  author : List String
  translator : List String
  pubdate : Option String
  producer : Option String
  binding : Option String
  pages : Option String
deriving DecidableEq

/-- `str(pages_raw).strip() if pages_raw is not None else ""`
(source line 296). -/
def pages_str_of (book : Book) : String :=
  match book.pages with
  | some p => pyStrip p
  | none => ""

/-- `build_notion_properties` (source lines 278-311). -/
def build_notion_properties (book : Book) : J :=
  let author_str :=
    if book.author.isEmpty then ""
    else collapse_spaces (String.intercalate ", " book.author)
  let translator_str :=
    if book.translator.isEmpty then ""
    else collapse_spaces (String.intercalate ", " book.translator)
  let publisher := collapse_spaces book.publisher
  let pubdate := convert_pubdate book.pubdate
  J.obj [
    ("书名", title_property book.title),
    ("出版社", rich_text_property publisher),
    ("作者", rich_text_property author_str),
    ("译者", rich_text_property translator_str),
    ("出版日期", date_property pubdate),
    ("出品方", rich_text_property (book.producer.getD "")),
    ("封面类型", select_property (book.binding.getD "")),
    ("页数", number_property (pages_str_of book))
  ]

/-- Keys of a JSON object (in order). -/
def jKeys : J → List String
  | J.obj fields => fields.map (fun p => p.1)
  | _ => []

/-- Value stored under a key in a JSON object. -/
def jGet (j : J) (k : String) : Option J :=
  match j with
  | J.obj fields => (fields.find? (fun p => p.1 == k)).map (fun p => p.2)
  | _ => none

/-- The record in which every optional field is absent. -/
def emptyBook : Book := ⟨"", "", [], [], none, none, none, none⟩

/-- The failure taxonomy of the module.  Every failure in the source is a
`RuntimeError` with a distinct message (or an uncaught transport exception);
each raise site is mapped to the spec's name for it. -/
inductive Err where
  | invalidInput
  | transportError
  | notFound
  | unexpectedStatus (status : Nat) (snippet : String)
  | pageStructure (anchor : String)
  | authError
  | configError
  | timeoutError
  | remoteRejection (status : Nat) (snippet : String)
deriving DecidableEq

/-- A sibling node walked by the label loop (source lines 123-136): an `<a>`
element (carrying its `get_text(strip=True)` rendering), any other node
(carrying its `str(...)` rendering), or the terminating `<br>`. -/
inductive Sib where
  | a (text : String)
  | node (text : String)
  | br

/-- The `value_parts` accumulation (source lines 122-136): walk siblings until
a `<br>`; `<a>` text is kept when non-empty; other nodes are stripped, have
`&nbsp;` replaced, and are kept when non-empty and not a bare `"/"`. -/
def valueParts : List Sib → List String
  | [] => []
  | Sib.br :: _ => []
  | Sib.a t :: rest =>
    if t = "" then valueParts rest else t :: valueParts rest
  | Sib.node s :: rest =>
    let t := pyStrip s
    if t = "" then valueParts rest
    else
      let cleaned := pyStrip (t.replace "&nbsp;" " ")
      if cleaned ≠ "" ∧ cleaned ≠ "/" then cleaned :: valueParts rest
      else valueParts rest

/-- `" ".join(value_parts).strip().lstrip(":：").strip()`
(source lines 138-139). -/
def rawValueOf (sibs : List Sib) : String :=
  pyStrip (lstripColons (pyStrip (String.intercalate " " (valueParts sibs))))

/-- The label router (source lines 144-169): prefix dispatch of a cleaned,
non-empty `raw_value` into the record being built. -/
def routeLabel (st : Book) (label raw_value : String) : Book :=
  if strStartsWith label "作者" then { st with author := parseNames raw_value }
  else if strStartsWith label "译者" then { st with translator := parseNames raw_value }
  else if strStartsWith label "出版社" then { st with publisher := collapse_spaces raw_value }
  else if strStartsWith label "出版年" then { st with pubdate := some raw_value }
  else if strStartsWith label "出品方" then { st with producer := some (collapse_spaces raw_value) }
  else if strStartsWith label "装帧" then { st with binding := some (collapse_spaces raw_value) }
  else if strStartsWith label "页数" then
    { st with pages := some (digitsOnly (collapse_spaces raw_value)) }
  else st

/-- The loop over `info_div.find_all("span", class_="pl")` (source lines
118-169): each entry carries the label's `get_text(strip=True)` and its
sibling nodes; empty values are skipped (`if not raw_value: continue`). -/
def processEntries : Book → List (String × List Sib) → Book
  | st, [] => st
  | st, (labelText, sibs) :: rest =>
    let label := rstripColons labelText
    let raw_value := rawValueOf sibs
    if raw_value = "" then processEntries st rest
    else processEntries (routeLabel st label raw_value) rest

/-- State of the record before the label loop (source lines 109-115). -/
def initBook (title : String) : Book := ⟨title, "", [], [], none, none, none, none⟩

/-- The parsed catalog page, as far as the source inspects it: the raw body
text, the `v:itemreviewed` span (its `get_text(strip=True)`, when found), and
the `id="info"` block's label entries (when found). -/
structure Page where
  text : String
  titleTag : Option String
  infoLabels : Option (List (String × List Sib))

/-- Outcome of the single `requests.get` of the fetcher: a network-level
exception (`requests.RequestException`) or an HTTP response. -/
inductive FetchOutcome where
  | netError
  | response (status : Nat) (page : Page)

/-- `fetch_book_from_douban` (source lines 55-182), over a transport
outcome oracle. -/
def fetch_book_from_douban (isbn : String) (out : FetchOutcome) : Except Err Book :=
  match out with
  | FetchOutcome.netError => Except.error Err.transportError
  | FetchOutcome.response status page =>
    if status = 404 then Except.error Err.notFound
    else if status ≠ 200 then
      Except.error (Err.unexpectedStatus status (strTake 200 page.text))
    else
      match page.titleTag with
      | none => Except.error (Err.pageStructure "title")
      | some t =>
        match page.infoLabels with
        | none => Except.error (Err.pageStructure "info")
        | some entries =>
          Except.ok (processEntries (initBook (collapse_spaces t)) entries)

/-- Outcome of one `requests.post` attempt of the writer: a response, a
`ReadTimeout`, or any other transport exception. -/
inductive SubOutcome where
  | ok (status : Nat) (body : String) (page : J)
  | readTimeout
  | otherErr

/-- Observable behaviour of one `create_notion_page` call: how many requests
were actually sent, the backoff sleeps performed (in seconds), and the
result. -/
structure SubmitTrace where
  requests : Nat
  sleeps : List Nat
  result : Except Err J

/-- The retry loop of `create_notion_page` (source lines 331-358): up to
`fuel` attempts, indexed from `i`; an empty token makes `notion_headers`
raise before the request is sent; a `ReadTimeout` sleeps 2 seconds and
retries; exhausting the budget raises the timeout error (`for`/`else`); a
response breaks the loop and is then checked for status 200. -/
def submitGo (token : String) (outs : Nat → SubOutcome) :
    Nat → Nat → Nat → List Nat → SubmitTrace
  | 0, _, reqs, sleeps => ⟨reqs, sleeps, Except.error Err.timeoutError⟩
  | fuel + 1, i, reqs, sleeps =>
    if token = "" then ⟨reqs, sleeps, Except.error Err.authError⟩
    else
      match outs i with
      | SubOutcome.ok status body page =>
        if status = 200 then ⟨reqs + 1, sleeps, Except.ok page⟩
        else ⟨reqs + 1, sleeps, Except.error (Err.remoteRejection status (strTake 500 body))⟩
      | SubOutcome.readTimeout => submitGo token outs fuel (i + 1) (reqs + 1) (sleeps ++ [2])
      | SubOutcome.otherErr => ⟨reqs + 1, sleeps, Except.error Err.transportError⟩

/-- `create_notion_page` (source lines 314-358): empty database id fails
before the loop; otherwise 3 attempts. -/
def create_notion_page (token database_id : String) (properties : J)
    (outs : Nat → SubOutcome) : SubmitTrace :=
  if database_id = "" then ⟨0, [], Except.error Err.configError⟩
  else submitGo token outs 3 0 0 []

/-- Observable behaviour of one `run_import` call. -/
structure RunTrace where
  fetchCalls : Nat
  submitRequests : Nat
  sleeps : List Nat
  result : Except Err (Book × J × J)

/-- `run_import` (source lines 364-385): reject an empty ISBN, then fetch,
build and submit in sequence, returning all three intermediate values. -/
def run_import (token database_id isbn : String) (fout : FetchOutcome)
    (souts : Nat → SubOutcome) : RunTrace :=
  if isbn = "" then ⟨0, 0, [], Except.error Err.invalidInput⟩
  else
    match fetch_book_from_douban isbn fout with
    | Except.error e => ⟨1, 0, [], Except.error e⟩
    | Except.ok book =>
      let properties := build_notion_properties book
      let t := create_notion_page token database_id properties souts
      ⟨1, t.requests, t.sleeps,
        match t.result with
        | Except.error e => Except.error e
        | Except.ok page => Except.ok (book, properties, page)⟩

/-! ### Helper lemmas -/

theorem length_dropWhile_isWS_le (l : List Char) :
    (l.dropWhile isWS).length ≤ l.length := by
  induction l with
  | nil => simp [List.dropWhile]
  | cons a t ih =>
    rw [List.dropWhile_cons]
    split
    · exact Nat.le_succ_of_le ih
    · exact Nat.le_refl _

theorem head_dropWhile_isWS {l : List Char} {d : Char} {r : List Char}
    (h : l.dropWhile isWS = d :: r) : isWS d = false := by
  induction l with
  | nil => simp [List.dropWhile] at h
  | cons a t ih =>
    rw [List.dropWhile_cons] at h
    split at h
    · exact ih h
    · cases h
      simp_all

theorem splitOnC_ne_nil (sep : Char) (l : List Char) : splitOnC sep l ≠ [] := by
  cases l with
  | nil => simp [splitOnC]
  | cons c rest =>
    simp only [splitOnC]
    split
    · simp
    · split <;> simp

theorem splitOnC_of_not_mem {sep : Char} {l : List Char} (h : sep ∉ l) :
    splitOnC sep l = [l] := by
  induction l with
  | nil => rfl
  | cons c rest ih =>
    have hc : c ≠ sep := fun e => h (e ▸ List.mem_cons_self c rest)
    have hrest : sep ∉ rest := fun m => h (List.mem_cons_of_mem c m)
    simp only [splitOnC, ih hrest]
    simp [hc]

theorem pyIntL?_nil : pyIntL? [] = none := rfl

theorem toList_mk (l : List Char) : (String.mk l).toList = l := rfl

theorem mk_eq_empty_iff (l : List Char) : String.mk l = "" ↔ l = [] := by
  constructor
  · intro h
    have : (String.mk l).toList = ("" : String).toList := by rw [h]
    simpa using this
  · intro h
    rw [h]

theorem specGo_nil : specGo [] = [] := by rw [specGo.eq_def]

theorem specGo_cons_not_ws {c : Char} {rest : List Char} (hc : isWS c = false) :
    specGo (c :: rest) = c :: specGo rest := by
  rw [specGo.eq_def]
  simp [hc]

theorem specGo_cons_ws_nil {c : Char} {rest : List Char} (hc : isWS c = true)
    (hm : rest.dropWhile isWS = []) : specGo (c :: rest) = [] := by
  rw [specGo.eq_def]
  simp only [hc, if_true]
  split
  · rfl
  · rename_i d r h
    rw [hm] at h
    cases h

theorem specGo_cons_ws_cons {c d : Char} {rest r : List Char} (hc : isWS c = true)
    (hm : rest.dropWhile isWS = d :: r) : specGo (c :: rest) = ' ' :: d :: specGo r := by
  rw [specGo.eq_def]
  simp only [hc, if_true]
  split
  · rename_i h
    rw [hm] at h
    cases h
  · rename_i d2 r2 h
    rw [hm] at h
    cases h
    rfl

theorem collapseAux_true_eq (l : List Char) :
    collapseAux true l = collapseAux false (l.dropWhile isWS) := by
  induction l with
  | nil => rfl
  | cons c rest ih =>
    cases hc : isWS c with
    | true => simp [collapseAux, hc, ih, List.dropWhile_cons]
    | false => simp [collapseAux, hc, List.dropWhile_cons]

theorem stripTrail_cons_of_not_ws {c : Char} (xs : List Char) (hc : isWS c = false) :
    pyStripTrail (c :: xs) = c :: pyStripTrail xs := by
  unfold pyStripTrail
  rw [List.reverse_cons, List.dropWhile_append]
  split
  · rename_i hemp
    rw [List.isEmpty_iff] at hemp
    simp [List.dropWhile_cons, hc, hemp]
  · simp

theorem stripTrail_cons_of_ne {c : Char} {xs : List Char} (h : pyStripTrail xs ≠ []) :
    pyStripTrail (c :: xs) = c :: pyStripTrail xs := by
  have hne : ¬(xs.reverse.dropWhile isWS).isEmpty = true := by
    intro hemp
    rw [List.isEmpty_iff] at hemp
    exact h (by simp [pyStripTrail, hemp])
  unfold pyStripTrail
  rw [List.reverse_cons, List.dropWhile_append, if_neg hne]
  simp

theorem dropWhile_collapseAux (l : List Char) :
    (collapseAux false l).dropWhile isWS = collapseAux false (l.dropWhile isWS) := by
  cases l with
  | nil => rfl
  | cons c rest =>
    cases hc : isWS c with
    | false => simp [collapseAux, hc, List.dropWhile_cons]
    | true =>
      have hws : isWS ' ' = true := rfl
      simp only [collapseAux, hc, if_true, Bool.true_eq_false, if_false,
        List.dropWhile_cons, hws, collapseAux_true_eq]
      cases hm : rest.dropWhile isWS with
      | nil => simp [collapseAux, List.dropWhile, hws]
      | cons d r =>
        have hd : isWS d = false := head_dropWhile_isWS hm
        simp [collapseAux, hd, hws, List.dropWhile_cons]

theorem stripTrail_collapseAux_bounded :
    ∀ (n : Nat) (l : List Char), l.length ≤ n →
      pyStripTrail (collapseAux false l) = specGo l := by
  intro n
  induction n with
  | zero =>
    intro l hl
    have : l = [] := List.length_eq_zero.mp (Nat.le_zero.mp hl)
    subst this
    rw [specGo_nil]
    rfl
  | succ n ih =>
    intro l hl
    cases l with
    | nil =>
      rw [specGo_nil]
      rfl
    | cons c rest =>
      have hrest : rest.length ≤ n := by
        simp only [List.length_cons] at hl
        omega
      cases hc : isWS c with
      | false =>
        have h1 : collapseAux false (c :: rest) = c :: collapseAux false rest := by
          simp [collapseAux, hc]
        rw [h1, stripTrail_cons_of_not_ws _ hc, ih rest hrest,
          specGo_cons_not_ws hc]
      | true =>
        have h1 : collapseAux false (c :: rest) = ' ' :: collapseAux true rest := by
          simp [collapseAux, hc]
        rw [h1, collapseAux_true_eq]
        cases hm : rest.dropWhile isWS with
        | nil =>
          rw [specGo_cons_ws_nil hc hm]
          rfl
        | cons d r =>
          have hd : isWS d = false := head_dropWhile_isWS hm
          have hr : r.length ≤ n := by
            have h2 := length_dropWhile_isWS_le rest
            rw [hm] at h2
            simp only [List.length_cons] at h2
            omega
          have h3 : collapseAux false (d :: r) = d :: collapseAux false r := by
            simp [collapseAux, hd]
          rw [h3]
          have hx : pyStripTrail (d :: collapseAux false r) =
              d :: pyStripTrail (collapseAux false r) :=
            stripTrail_cons_of_not_ws _ hd
          rw [stripTrail_cons_of_ne (by rw [hx]; simp), hx, ih r hr,
            specGo_cons_ws_cons hc hm]

theorem stripTrail_collapseAux (l : List Char) :
    pyStripTrail (collapseAux false l) = specGo l :=
  stripTrail_collapseAux_bounded l.length l (Nat.le_refl _)

theorem pyStripL_eq_trail (l : List Char) :
    pyStripL l = pyStripTrail (l.dropWhile isWS) := rfl

theorem collapseL_eq_spec (l : List Char) :
    pyStripL (collapseAux false l) = collapseSpec l := by
  rw [pyStripL_eq_trail, dropWhile_collapseAux, stripTrail_collapseAux]
  rfl

theorem collapse_spaces_eq_spec (s : String) :
    collapse_spaces s = String.mk (collapseSpec s.toList) := by
  by_cases hs : s = ""
  · subst hs
    have h0 : collapseSpec (("" : String).toList) = [] := specGo_nil
    rw [collapse_spaces, if_pos rfl, h0]
  · unfold collapse_spaces
    rw [if_neg hs, collapseL_eq_spec]

theorem specGo_idem_bounded :
    ∀ (n : Nat) (l : List Char), l.length ≤ n → specGo (specGo l) = specGo l := by
  intro n
  induction n with
  | zero =>
    intro l hl
    have : l = [] := List.length_eq_zero.mp (Nat.le_zero.mp hl)
    subst this
    rw [specGo_nil, specGo_nil]
  | succ n ih =>
    intro l hl
    cases l with
    | nil => rw [specGo_nil, specGo_nil]
    | cons c rest =>
      have hrest : rest.length ≤ n := by
        simp only [List.length_cons] at hl
        omega
      cases hc : isWS c with
      | false =>
        rw [specGo_cons_not_ws hc, specGo_cons_not_ws hc, ih rest hrest]
      | true =>
        cases hm : rest.dropWhile isWS with
        | nil => rw [specGo_cons_ws_nil hc hm, specGo_nil]
        | cons d r =>
          have hd : isWS d = false := head_dropWhile_isWS hm
          have hr : r.length ≤ n := by
            have h1 := length_dropWhile_isWS_le rest
            rw [hm] at h1
            simp only [List.length_cons] at h1
            omega
          have hws : isWS ' ' = true := rfl
          rw [specGo_cons_ws_cons hc hm,
            specGo_cons_ws_cons hws (by rw [List.dropWhile_cons_of_neg (by simp [hd])]),
            ih r hr]

theorem specGo_idem (l : List Char) : specGo (specGo l) = specGo l :=
  specGo_idem_bounded l.length l (Nat.le_refl _)

theorem collapseSpec_ne_nil {l : List Char} (h : pyStripL l ≠ []) :
    collapseSpec l ≠ [] := by
  rw [pyStripL_eq_trail] at h
  cases hm : l.dropWhile isWS with
  | nil =>
    rw [hm] at h
    exact absurd rfl h
  | cons d r =>
    have hd : isWS d = false := head_dropWhile_isWS hm
    rw [collapseSpec, hm, specGo_cons_not_ws hd]
    simp

theorem collapse_spaces_ne_empty {s : String} (h : pyStripL s.toList ≠ []) :
    collapse_spaces s ≠ "" := by
  rw [collapse_spaces_eq_spec, ne_eq, mk_eq_empty_iff]
  exact collapseSpec_ne_nil h

theorem ws_not_digit {c : Char} (h : isWS c = true) : c.isDigit = false := by
  simp only [isWS, Bool.or_eq_true, beq_iff_eq] at h
  rcases h with ((h | h) | h) | h <;> subst h <;> decide

theorem filter_dropWhile_isWS {q : Char → Bool}
    (hq : ∀ c, isWS c = true → q c = false) (l : List Char) :
    (l.dropWhile isWS).filter q = l.filter q := by
  induction l with
  | nil => rfl
  | cons c rest ih =>
    rw [List.dropWhile_cons]
    split
    · rename_i hc
      rw [ih, List.filter_cons, hq c hc]
      simp
    · rfl

theorem specGo_filter_bounded {q : Char → Bool}
    (hq : ∀ c, isWS c = true → q c = false) :
    ∀ (n : Nat) (l : List Char), l.length ≤ n →
      (specGo l).filter q = l.filter q := by
  intro n
  induction n with
  | zero =>
    intro l hl
    have : l = [] := List.length_eq_zero.mp (Nat.le_zero.mp hl)
    subst this
    rw [specGo_nil]
  | succ n ih =>
    intro l hl
    cases l with
    | nil => rw [specGo_nil]
    | cons c rest =>
      have hrest : rest.length ≤ n := by
        simp only [List.length_cons] at hl
        omega
      cases hc : isWS c with
      | false =>
        rw [specGo_cons_not_ws hc, List.filter_cons, List.filter_cons, ih rest hrest]
      | true =>
        have hrw : rest.filter q = (rest.dropWhile isWS).filter q :=
          (filter_dropWhile_isWS hq rest).symm
        cases hm : rest.dropWhile isWS with
        | nil =>
          rw [specGo_cons_ws_nil hc hm, List.filter_cons, hq c hc]
          simp only [Bool.false_eq_true, if_false]
          rw [hrw, hm]
        | cons d r =>
          have hr : r.length ≤ n := by
            have h1 := length_dropWhile_isWS_le rest
            rw [hm] at h1
            simp only [List.length_cons] at h1
            omega
          rw [specGo_cons_ws_cons hc hm]
          simp only [List.filter_cons, hq ' ' rfl, hq c hc, Bool.false_eq_true,
            if_false]
          rw [ih r hr, hrw, hm, List.filter_cons]

theorem specGo_filter {q : Char → Bool}
    (hq : ∀ c, isWS c = true → q c = false) (l : List Char) :
    (specGo l).filter q = l.filter q :=
  specGo_filter_bounded hq l.length l (Nat.le_refl _)

theorem digitsOnly_collapse_of_no_digit {s : String}
    (h : ∀ c ∈ s.toList, c.isDigit = false) :
    digitsOnly (collapse_spaces s) = "" := by
  rw [digitsOnly, collapse_spaces_eq_spec, toList_mk, collapseSpec,
    specGo_filter (fun c hc => ws_not_digit hc),
    filter_dropWhile_isWS (fun c hc => ws_not_digit hc),
    List.filter_eq_nil_iff.mpr (by intro c hc; rw [h c hc]; simp)]

theorem replSlash_of_not_mem : ∀ {l : List Char}, '/' ∉ l → replSlash l = l
  | [], _ => rfl
  | [c], _ => rfl
  | [c1, c2], _ => rfl
  | c1 :: c2 :: c3 :: rest, h => by
    have h2 : c2 ≠ '/' := by
      intro e
      exact h (by rw [e]; simp)
    have hrest : '/' ∉ c2 :: c3 :: rest := by
      intro m
      exact h (List.mem_cons_of_mem c1 m)
    rw [replSlash, if_neg (by tauto), replSlash_of_not_mem hrest]

theorem dropWhile_specGo (l : List Char) :
    (specGo (l.dropWhile isWS)).dropWhile isWS = specGo (l.dropWhile isWS) := by
  cases hm : l.dropWhile isWS with
  | nil => rw [specGo_nil]; rfl
  | cons d r =>
    have hd : isWS d = false := head_dropWhile_isWS hm
    rw [specGo_cons_not_ws hd, List.dropWhile_cons_of_neg (by simp [hd])]

theorem collapseSpec_idem (l : List Char) :
    collapseSpec (collapseSpec l) = collapseSpec l := by
  rw [collapseSpec, collapseSpec, dropWhile_specGo, specGo_idem]

theorem iclamp_lb (lo hi n : Int) : lo ≤ iclamp lo hi n := le_max_left _ _

theorem iclamp_ub (lo hi n : Int) (h : lo ≤ hi) : iclamp lo hi n ≤ hi :=
  max_le h (min_le_right _ _)

/-! ### Claim theorems -/

/-- C7: `collapse_spaces` is idempotent; it coincides with the spec-side
normal form `collapseSpec` (every whitespace run collapses to one space,
leading and trailing whitespace is trimmed); empty input yields the empty
string. -/
theorem C7_collapse_spaces_idempotent :
    (∀ s : String, collapse_spaces (collapse_spaces s) = collapse_spaces s) ∧
    (∀ s : String, collapse_spaces s = String.mk (collapseSpec s.toList)) ∧
    collapse_spaces "" = "" ∧
    collapse_spaces "  a \t\n b  " = "a b" := by
  refine ⟨fun s => ?_, collapse_spaces_eq_spec, rfl, by decide⟩
  rw [collapse_spaces_eq_spec s, collapse_spaces_eq_spec (String.mk (collapseSpec s.toList)),
    toList_mk, collapseSpec_idem]

/-- C1 counterexample: `convert_pubdate` does not ignore the day segment;
on `"2018-8-15"` it returns `"2018-08-15"`, not the claimed `"2018-08-01"`. -/
theorem C1_counterexample :
    convert_pubdate (some "2018-8-15") = some "2018-08-15" ∧
    convert_pubdate (some "2018-8-15") ≠ some "2018-08-01" := by
  constructor
  · decide
  · decide

/-- C1 (amended): for an input with exactly three `-`-separated segments whose
first segment parses as an integer year, `convert_pubdate` parses the day
segment (defaulting to 1 when unparseable) and clamps it into `[1,31]`; in
particular `"2018-8-15"` yields `"2018-08-15"`. -/
theorem C1_day_parsed :
    (∀ (s : String) (a b c : List Char) (y : Int),
        splitOnC '-' (pyStripL s.toList) = [a, b, c] →
        pyIntL? a = some y →
        convert_pubdate (some s) =
          some (fmtDate y (iclamp 1 12 ((pyIntL? b).getD 1))
            (iclamp 1 31 ((pyIntL? c).getD 1)))) ∧
    convert_pubdate (some "2018-8-15") = some "2018-08-15" := by
  constructor
  · intro s a b c y hsplit hyear
    have hs : ¬s = "" := by
      intro e
      subst e
      simp [pyStripL, List.dropWhile, splitOnC] at hsplit
    have hcore : convertCore s =
        some (fmtDate y (iclamp 1 12 ((pyIntL? b).getD 1))
          (iclamp 1 31 ((pyIntL? c).getD 1))) := by
      simp only [convertCore, hsplit, List.headI, hyear, List.length_cons,
        List.length_nil, List.getD]
      norm_num [List.get?]
    simp [convert_pubdate, hs, hcore]
  · decide

/-- C1 amendment witness at the concrete input `"2018-8-15"`. -/
theorem C1_day_parsed_witness :
    convert_pubdate (some "2018-8-15") =
      some (fmtDate 2018 (iclamp 1 12 ((pyIntL? ['8']).getD 1))
        (iclamp 1 31 ((pyIntL? ['1', '5']).getD 1))) :=
  C1_day_parsed.1 "2018-8-15" ['2', '0', '1', '8'] ['8'] ['1', '5'] 2018
    (by decide) (by decide)

/-- C2: `convert_pubdate` returns `none` on absent or empty input and when
the first `-`-segment does not parse as an integer; a missing or unparseable
month defaults to 1; every produced date is `fmtDate y m d` (zero-padded
`YYYY-MM-DD`) with the month clamped into `[1,12]` and the day clamped into
`[1,31]`; and the three spec examples hold. -/
theorem C2_convert_pubdate_contract :
    convert_pubdate none = none ∧
    convert_pubdate (some "") = none ∧
    (∀ s : String,
        pyIntL? (splitOnC '-' (pyStripL s.toList)).headI = none →
        convert_pubdate (some s) = none) ∧
    (∀ (s : String) (r : String),
        convert_pubdate (some s) = some r →
        ∃ y m d : Int, (1 ≤ m ∧ m ≤ 12 ∧ 1 ≤ d ∧ d ≤ 31) ∧ r = fmtDate y m d) ∧
    (∀ (s : String) (y : Int),
        (splitOnC '-' (pyStripL s.toList)).length = 1 →
        pyIntL? (splitOnC '-' (pyStripL s.toList)).headI = some y →
        convert_pubdate (some s) = some (fmtDate y 1 1)) ∧
    (∀ (s : String) (a b : List Char) (t : List (List Char)) (y : Int),
        splitOnC '-' (pyStripL s.toList) = a :: b :: t →
        pyIntL? a = some y → pyIntL? b = none →
        ∃ d : Int, 1 ≤ d ∧ d ≤ 31 ∧
          convert_pubdate (some s) = some (fmtDate y 1 d)) ∧
    convert_pubdate (some "2018") = some "2018-01-01" ∧
    convert_pubdate (some "2018-8") = some "2018-08-01" ∧
    convert_pubdate (some "2018-13") = some "2018-12-01" := by
  have hne : ∀ s : String, ¬s = "" → convert_pubdate (some s) = convertCore s := by
    intro s hs
    simp [convert_pubdate, hs]
  refine ⟨rfl, rfl, ?_, ?_, ?_, ?_, by decide, by decide, by decide⟩
  · intro s hnone
    by_cases hs : s = ""
    · subst hs
      rfl
    · rw [hne s hs, convertCore]
      simp only [hnone]
  · intro s r hr
    by_cases hs : s = ""
    · subst hs
      simp [convert_pubdate] at hr
    · rw [hne s hs, convertCore] at hr
      cases hy : pyIntL? (splitOnC '-' (pyStripL s.toList)).headI with
      | none =>
        rw [hy] at hr
        exact Option.noConfusion hr
      | some y =>
        rw [hy] at hr
        have hr2 : some (fmtDate y
            (iclamp 1 12 (if 2 ≤ (splitOnC '-' (pyStripL s.toList)).length then
              (pyIntL? ((splitOnC '-' (pyStripL s.toList)).getD 1 [])).getD 1 else 1))
            (iclamp 1 31 (if (splitOnC '-' (pyStripL s.toList)).length = 3 then
              (pyIntL? ((splitOnC '-' (pyStripL s.toList)).getD 2 [])).getD 1 else 1))) =
            some r := hr
        refine ⟨y, _, _, ⟨iclamp_lb _ _ _, iclamp_ub _ _ _ (by norm_num),
          iclamp_lb _ _ _, iclamp_ub _ _ _ (by norm_num)⟩,
          (Option.some_injective _ hr2).symm⟩
  · intro s y hlen hy
    by_cases hs : s = ""
    · exact absurd hy (by simp [hs, pyStripL, List.dropWhile, splitOnC,
        List.headI, pyIntL?_nil])
    · rw [hne s hs, convertCore]
      rw [hy, hlen]
      norm_num [iclamp]
  · intro s a b t y hsplit hya hyb
    by_cases hs : s = ""
    · subst hs
      simp [pyStripL, List.dropWhile, splitOnC] at hsplit
    · refine ⟨iclamp 1 31 (if (a :: b :: t).length = 3 then
        (pyIntL? ((a :: b :: t).getD 2 [])).getD 1 else 1),
        iclamp_lb _ _ _, iclamp_ub _ _ _ (by norm_num), ?_⟩
      rw [hne s hs, convertCore, hsplit]
      simp only [List.headI, hya, List.length_cons, List.getD_cons_succ,
        List.getD_cons_zero, hyb]
      norm_num [iclamp]

/-- C2 witness at the concrete inputs `"abc"` (unparseable year) and
`"2018"` (year only). -/
theorem C2_convert_pubdate_witness :
    convert_pubdate (some "abc") = none ∧
    convert_pubdate (some "2018") = some (fmtDate 2018 1 1) :=
  ⟨C2_convert_pubdate_contract.2.2.1 "abc" (by decide),
    C2_convert_pubdate_contract.2.2.2.2.1 "2018" 2018 (by decide) (by decide)⟩

/-- C3: `build_notion_properties` is total and deterministic; every payload
carries exactly the eight fixed keys in order, and the all-absent record maps
to the empty representation of each field type (empty title text, empty
rich-text arrays, null date, null select, null number). -/
theorem C3_build_notion_properties_total :
    (∀ book : Book, jKeys (build_notion_properties book) =
      ["书名", "出版社", "作者", "译者", "出版日期", "出品方", "封面类型", "页数"]) ∧
    (∀ b1 b2 : Book, b1 = b2 →
      build_notion_properties b1 = build_notion_properties b2) ∧
    build_notion_properties emptyBook = J.obj [
      ("书名", J.obj [("title", J.arr [J.obj [("text", J.obj [("content", J.str "")])]])]),
      ("出版社", J.obj [("rich_text", J.arr [])]),
      ("作者", J.obj [("rich_text", J.arr [])]),
      ("译者", J.obj [("rich_text", J.arr [])]),
      ("出版日期", J.obj [("date", J.null)]),
      ("出品方", J.obj [("rich_text", J.arr [])]),
      ("封面类型", J.obj [("select", J.null)]),
      ("页数", J.obj [("number", J.null)])] :=
  ⟨fun _ => rfl, fun _ _ h => h ▸ rfl, rfl⟩

/-- C3 witness: determinism applied at the all-absent record. -/
theorem C3_build_notion_properties_witness :
    build_notion_properties emptyBook = build_notion_properties emptyBook :=
  C3_build_notion_properties_total.2.1 emptyBook emptyBook rfl

/-- C8: the fetcher splits author/translator values on `/` into ordered,
whitespace-collapsed names: `"A / B"` yields `["A", "B"]`, a value without
`/` (and with some non-whitespace content) yields exactly one name, and the
author/translator routes of the label loop store exactly `parseNames`. -/
theorem C8_author_translator_split :
    parseNames "A / B" = ["A", "B"] ∧
    (∀ s : String, '/' ∉ s.toList → pyStripL s.toList ≠ [] →
        parseNames s = [collapse_spaces s]) ∧
    (∀ (st : Book) (raw : String),
        (routeLabel st "作者" raw).author = parseNames raw) ∧
    (∀ (st : Book) (raw : String),
        (routeLabel st "译者" raw).translator = parseNames raw) := by
  refine ⟨by decide, ?_, fun st raw => rfl, fun st raw => rfl⟩
  intro s hmem hne
  rw [parseNames, replSlash_of_not_mem hmem, splitOnC_of_not_mem hmem,
    List.filter_cons, if_pos (by simp [List.isEmpty_iff]; exact hne)]
  rfl

/-- C8 witness: the single-name case applied at the concrete value `"A"`. -/
theorem C8_author_translator_split_witness :
    parseNames "A" = [collapse_spaces "A"] :=
  C8_author_translator_split.2.1 "A" (by decide) (by decide)

/-- C10: every name produced by the author/translator split is non-empty
(empty or whitespace-only `/`-segments are dropped), as the inputs `"A//B"`
and `"A/"` illustrate. -/
theorem C10_split_names_nonempty :
    (∀ (s x : String), x ∈ parseNames s → x ≠ "") ∧
    parseNames "A//B" = ["A", "B"] ∧
    parseNames "A/" = ["A"] := by
  refine ⟨?_, by decide, by decide⟩
  intro s x hx
  rw [parseNames] at hx
  rcases List.mem_map.mp hx with ⟨v, hv, rfl⟩
  have hne : pyStripL v ≠ [] := by
    have := (List.mem_filter.mp hv).2
    simpa [List.isEmpty_iff] using this
  have : pyStripL (String.mk v).toList ≠ [] := by
    rw [toList_mk]
    exact hne
  exact collapse_spaces_ne_empty this

/-- C10 witness: the non-emptiness fact applied at the concrete split of
`"A//B"`. -/
theorem C10_split_names_nonempty_witness : ("A" : String) ≠ "" :=
  C10_split_names_nonempty.1 "A//B" "A" (by decide)

/-- C9: the page route keeps only digit characters of the collapsed raw value
(`"338页"` gives `"338"`, digit-free input gives `""`, and the result is all
digits), and `number_property` sends `""` or an unparseable string to a null
number field and a parseable one to its integer value; the payload's `页数`
entry is `number_property` of the stripped pages string. -/
theorem C9_page_count_digits :
    (∀ (st : Book) (raw : String),
        (routeLabel st "页数" raw).pages = some (digitsOnly (collapse_spaces raw))) ∧
    digitsOnly (collapse_spaces "338页") = "338" ∧
    (∀ s : String, (∀ c ∈ s.toList, c.isDigit = false) →
        digitsOnly (collapse_spaces s) = "") ∧
    (∀ s : String, (digitsOnly s).toList.all Char.isDigit = true) ∧
    number_property "" = J.obj [("number", J.null)] ∧
    (∀ (s : String) (n : Int), pyInt? s = some n →
        number_property s = J.obj [("number", J.num n)]) ∧
    (∀ s : String, pyInt? s = none →
        number_property s = J.obj [("number", J.null)]) ∧
    (∀ book : Book, jGet (build_notion_properties book) "页数" =
        some (number_property (pages_str_of book))) := by
  refine ⟨fun st raw => rfl, by decide, fun s h => digitsOnly_collapse_of_no_digit h,
    ?_, rfl, ?_, ?_, fun book => rfl⟩
  · intro s
    rw [digitsOnly, toList_mk, List.all_eq_true]
    intro c hc
    exact (List.mem_filter.mp hc).2
  · intro s n h
    have hs : ¬s = "" := by
      intro e
      subst e
      exact Option.noConfusion h
    simp [number_property, hs, h]
  · intro s h
    by_cases hs : s = ""
    · subst hs
      rfl
    · simp [number_property, hs, h]

/-- C9 witness: the parsed-integer case applied at the digit string `"338"`
and the null case at `"x"`. -/
theorem C9_page_count_digits_witness :
    number_property "338" = J.obj [("number", J.num 338)] ∧
    number_property "x" = J.obj [("number", J.null)] :=
  ⟨C9_page_count_digits.2.2.2.2.2.1 "338" 338 (by decide),
    C9_page_count_digits.2.2.2.2.2.2.1 "x" (by decide)⟩

theorem submitGo_ok {token : String} {outs : Nat → SubOutcome}
    {i status : Nat} {body : String} {page : J} (fuel reqs : Nat) (sl : List Nat)
    (ht : ¬token = "") (ho : outs i = SubOutcome.ok status body page) :
    submitGo token outs (fuel + 1) i reqs sl =
      if status = 200 then ⟨reqs + 1, sl, Except.ok page⟩
      else ⟨reqs + 1, sl,
        Except.error (Err.remoteRejection status (strTake 500 body))⟩ := by
  simp [submitGo, ht, ho]

theorem submitGo_rt {token : String} {outs : Nat → SubOutcome} {i : Nat}
    (fuel reqs : Nat) (sl : List Nat)
    (ht : ¬token = "") (ho : outs i = SubOutcome.readTimeout) :
    submitGo token outs (fuel + 1) i reqs sl =
      submitGo token outs fuel (i + 1) (reqs + 1) (sl ++ [2]) := by
  simp [submitGo, ht, ho]

theorem submitGo_other {token : String} {outs : Nat → SubOutcome} {i : Nat}
    (fuel reqs : Nat) (sl : List Nat)
    (ht : ¬token = "") (ho : outs i = SubOutcome.otherErr) :
    submitGo token outs (fuel + 1) i reqs sl =
      ⟨reqs + 1, sl, Except.error Err.transportError⟩ := by
  simp [submitGo, ht, ho]

theorem submitGo_requests_le (token : String) (outs : Nat → SubOutcome) :
    ∀ (fuel i reqs : Nat) (sl : List Nat),
      (submitGo token outs fuel i reqs sl).requests ≤ reqs + fuel := by
  intro fuel
  induction fuel with
  | zero =>
    intro i reqs sl
    simp [submitGo]
  | succ n ih =>
    intro i reqs sl
    by_cases ht : token = ""
    · simp [submitGo, ht]
    · cases ho : outs i with
      | ok status body page =>
        rw [submitGo_ok n reqs sl ht ho]
        split
        · change reqs + 1 ≤ reqs + (n + 1)
          omega
        · change reqs + 1 ≤ reqs + (n + 1)
          omega
      | readTimeout =>
        rw [submitGo_rt n reqs sl ht ho]
        have := ih (i + 1) (reqs + 1) (sl ++ [2])
        omega
      | otherErr =>
        rw [submitGo_other n reqs sl ht ho]
        change reqs + 1 ≤ reqs + (n + 1)
        omega

/-- C4: with non-empty credentials and target id, `create_notion_page` sends
at most 3 requests; three read-timeouts exhaust the budget (three 2-second
sleeps, `timeoutError`, no 4th attempt); a timeout followed by a 200 response
on the 2nd or 3rd attempt succeeds; and a non-timeout transport exception on
any attempt propagates immediately with no further requests and no extra
sleep. -/
theorem C4_create_notion_page_retry (token database_id : String) (props : J)
    (outs : Nat → SubOutcome) (ht : token ≠ "") (hd : database_id ≠ "") :
    (create_notion_page token database_id props outs).requests ≤ 3 ∧
    ((∀ i, i < 3 → outs i = SubOutcome.readTimeout) →
      create_notion_page token database_id props outs =
        ⟨3, [2, 2, 2], Except.error Err.timeoutError⟩) ∧
    (∀ (b : String) (p : J), outs 0 = SubOutcome.readTimeout →
      outs 1 = SubOutcome.ok 200 b p →
      create_notion_page token database_id props outs = ⟨2, [2], Except.ok p⟩) ∧
    (∀ (b : String) (p : J), outs 0 = SubOutcome.readTimeout →
      outs 1 = SubOutcome.readTimeout → outs 2 = SubOutcome.ok 200 b p →
      create_notion_page token database_id props outs = ⟨3, [2, 2], Except.ok p⟩) ∧
    (∀ i, i < 3 → (∀ j, j < i → outs j = SubOutcome.readTimeout) →
      outs i = SubOutcome.otherErr →
      create_notion_page token database_id props outs =
        ⟨i + 1, List.replicate i 2, Except.error Err.transportError⟩) := by
  refine ⟨?_, ?_, ?_, ?_, ?_⟩
  · simp only [create_notion_page, if_neg hd]
    exact submitGo_requests_le token outs 3 0 0 []
  · intro h
    have h0 := h 0 (by omega)
    have h1 := h 1 (by omega)
    have h2 := h 2 (by omega)
    simp [create_notion_page, hd, submitGo, ht, h0, h1, h2]
  · intro b p h0 h1
    simp [create_notion_page, hd, submitGo, ht, h0, h1]
  · intro b p h0 h1 h2
    simp [create_notion_page, hd, submitGo, ht, h0, h1, h2]
  · intro i hi hj hother
    match i with
    | 0 =>
      simp [create_notion_page, hd, submitGo, ht, hother]
    | 1 =>
      have h0 := hj 0 (by omega)
      simp [create_notion_page, hd, submitGo, ht, h0, hother]
    | 2 =>
      have h0 := hj 0 (by omega)
      have h1 := hj 1 (by omega)
      simp [create_notion_page, hd, submitGo, ht, h0, h1, hother,
        List.replicate]
    | n + 3 => omega

/-- C4 witness: the exhausted-budget case at a concrete always-timeout
oracle. -/
theorem C4_create_notion_page_retry_witness :
    create_notion_page "t" "d" J.null (fun _ => SubOutcome.readTimeout) =
      ⟨3, [2, 2, 2], Except.error Err.timeoutError⟩ :=
  (C4_create_notion_page_retry "t" "d" J.null (fun _ => SubOutcome.readTimeout)
    (by decide) (by decide)).2.1 (fun i _ => rfl)

/-- C5: `fetch_book_from_douban` fails with `transportError` on network
failure, `notFound` exactly on status 404, `unexpectedStatus` (carrying the
200-character body snippet) on any other non-200 status, `pageStructure` when
the title span or the info block is missing, and returns a record only when
none of these hold. -/
theorem C5_fetch_error_taxonomy (isbn : String) :
    fetch_book_from_douban isbn FetchOutcome.netError =
      Except.error Err.transportError ∧
    (∀ page, fetch_book_from_douban isbn (FetchOutcome.response 404 page) =
      Except.error Err.notFound) ∧
    (∀ (status : Nat) (page : Page), status ≠ 404 → status ≠ 200 →
      fetch_book_from_douban isbn (FetchOutcome.response status page) =
        Except.error (Err.unexpectedStatus status (strTake 200 page.text))) ∧
    (∀ page : Page, page.titleTag = none →
      fetch_book_from_douban isbn (FetchOutcome.response 200 page) =
        Except.error (Err.pageStructure "title")) ∧
    (∀ (page : Page) (t : String), page.titleTag = some t →
      page.infoLabels = none →
      fetch_book_from_douban isbn (FetchOutcome.response 200 page) =
        Except.error (Err.pageStructure "info")) ∧
    (∀ (out : FetchOutcome) (b : Book),
      fetch_book_from_douban isbn out = Except.ok b →
      ∃ (page : Page) (t : String) (entries : List (String × List Sib)),
        out = FetchOutcome.response 200 page ∧ page.titleTag = some t ∧
          page.infoLabels = some entries) ∧
    (∀ out : FetchOutcome,
      fetch_book_from_douban isbn out = Except.error Err.notFound →
      ∃ page, out = FetchOutcome.response 404 page) := by
  refine ⟨rfl, fun page => rfl, ?_, ?_, ?_, ?_, ?_⟩
  · intro status page h4 h2
    simp [fetch_book_from_douban, h4, h2]
  · intro page ht
    simp [fetch_book_from_douban, ht]
  · intro page t ht hi
    simp [fetch_book_from_douban, ht, hi]
  · intro out b hb
    cases out with
    | netError => exact Except.noConfusion hb
    | response status page =>
      by_cases h4 : status = 404
      · rw [fetch_book_from_douban, if_pos h4] at hb
        exact Except.noConfusion hb
      · by_cases h2 : status = 200
        · subst h2
          cases ht : page.titleTag with
          | none =>
            rw [fetch_book_from_douban] at hb
            simp [ht, h4] at hb
          | some t =>
            cases hi : page.infoLabels with
            | none =>
              rw [fetch_book_from_douban] at hb
              simp [ht, hi, h4] at hb
            | some entries => exact ⟨page, t, entries, rfl, ht, hi⟩
        · rw [fetch_book_from_douban, if_neg h4, if_pos h2] at hb
          exact Except.noConfusion hb
  · intro out hb
    cases out with
    | netError => simp [fetch_book_from_douban] at hb
    | response status page =>
      by_cases h4 : status = 404
      · subst h4
        exact ⟨page, rfl⟩
      · by_cases h2 : status = 200
        · subst h2
          rw [fetch_book_from_douban] at hb
          cases ht : page.titleTag with
          | none => simp [ht, h4] at hb
          | some t =>
            cases hi : page.infoLabels with
            | none => simp [ht, hi, h4] at hb
            | some entries => simp [ht, hi, h4] at hb
        · rw [fetch_book_from_douban, if_neg h4, if_pos h2] at hb
          simp at hb

/-- C5 witness: the unexpected-status case at a concrete 500 response. -/
theorem C5_fetch_error_taxonomy_witness :
    fetch_book_from_douban "9787000000000"
      (FetchOutcome.response 500 ⟨"oops", none, none⟩) =
      Except.error (Err.unexpectedStatus 500 (strTake 200 "oops")) :=
  (C5_fetch_error_taxonomy "9787000000000").2.2.1 500 ⟨"oops", none, none⟩
    (by decide) (by decide)

/-- C6: an empty ISBN makes `run_import` fail with `invalidInput` before any
network call (no fetch, no submit request); an empty database id makes
`create_notion_page` fail with `configError` and an empty token (with a
non-empty database id) with `authError`, in both cases before any request is
sent. -/
theorem C6_empty_inputs_rejected :
    (∀ (token database_id : String) (fout : FetchOutcome)
        (souts : Nat → SubOutcome),
      run_import token database_id "" fout souts =
        ⟨0, 0, [], Except.error Err.invalidInput⟩) ∧
    (∀ (token : String) (props : J) (souts : Nat → SubOutcome),
      create_notion_page token "" props souts =
        ⟨0, [], Except.error Err.configError⟩) ∧
    (∀ (database_id : String) (props : J) (souts : Nat → SubOutcome),
      database_id ≠ "" →
      create_notion_page "" database_id props souts =
        ⟨0, [], Except.error Err.authError⟩) := by
  refine ⟨fun token database_id fout souts => rfl,
    fun token props souts => rfl, ?_⟩
  intro database_id props souts hd
  simp [create_notion_page, hd, submitGo]

/-- C6 witness: the empty-token case at a concrete database id. -/
theorem C6_empty_inputs_rejected_witness :
    create_notion_page "" "d" J.null (fun _ => SubOutcome.readTimeout) =
      ⟨0, [], Except.error Err.authError⟩ :=
  C6_empty_inputs_rejected.2.2 "d" J.null (fun _ => SubOutcome.readTimeout)
    (by decide)

end DoubanNotion
